import Mathlib

set_option linter.unusedVariables false

/-! Model of `lib/ffmpeg_test/h264decode.c`.

A shallow embedding of the H.264 test harness: the frame serializer
`append_frame_to_file`, the submit/drain cycle `decode_frame` and the session
constructor `init_ctx`.

Everything the harness does not own (libc streams and the decoder library) is an
oracle `Env`: the answer of the `i`-th call to each external function.  The process
state `World` holds the contents of `h264.raw`, the two console streams, the static
`frame_count` and, for every external function, the number of calls made so far.
Undefined behaviour of the C program (reads outside a plane buffer, signed overflow,
a null context) is the result `none`, as is running out of fuel in `while (1)`.
-/

namespace H264Decode

/-! ## Machine model -/

/-- One `uint8_t`; the harness only copies bytes, it never computes with them. -/
abbrev Byte := Nat

/-- Largest value of a C `int` (32 bits). -/
def INT_MAX : Int := 2147483647

/-- Smallest value of a C `int` (32 bits). -/
def INT_MIN : Int := -2147483648

/-- Number of values of `size_t` (64 bits). -/
def SIZE_MODULUS : Int := 18446744073709551616

/-- A `uint8_t*`: the allocated object it points into and the offset within it. -/
structure BytePtr where
  block : List Byte
  off : Int

/-- Pointer arithmetic `p + n`; defined while the result stays within the object
(or one past its end). -/
def BytePtr.add (p : BytePtr) (n : Int) : Option BytePtr :=
  if 0 ≤ p.off + n ∧ p.off + n ≤ p.block.length then
    some { block := p.block, off := p.off + n }
  else none

/-- The `n` bytes starting at `p`, as `fwrite` reads them; defined when they all lie
inside the object. -/
def BytePtr.read (p : BytePtr) (n : Nat) : Option (List Byte) :=
  if 0 ≤ p.off ∧ p.off + n ≤ p.block.length then
    some ((p.block.drop p.off.toNat).take n)
  else none

/-- Multiplication of two `int`s; signed overflow is undefined. -/
def mulInt (a b : Int) : Option Int :=
  if INT_MIN ≤ a * b ∧ a * b ≤ INT_MAX then some (a * b) else none

/-- Conversion of an `int` argument to `size_t`. -/
def toSizeT (n : Int) : Nat := (n % SIZE_MODULUS).toNat

/-- The fields of `AVFrame` that the harness reads. -/
structure AVFrame where
  data : Nat → BytePtr
  linesize : Nat → Int
  width : Int
  height : Int

/-- The world outside the harness: what the `i`-th call of each external function
answers, and the two error codes of the decoder library that the drain loop tests. -/
structure Env where
  /-- Whether the `i`-th `fopen(OUTPUT_FILE, "ab")` yields a stream. -/
  fopen : Nat → Bool
  /-- How many of the `n` requested bytes the `i`-th `fwrite` appends. -/
  fwrite : Nat → Nat → Nat
  /-- Return code of the `i`-th `avcodec_send_packet`. -/
  avcodec_send_packet : Nat → Int
  /-- Return code of the `i`-th `avcodec_receive_frame` and the frame it fills in. -/
  avcodec_receive_frame : Nat → Int × AVFrame
  /-- The decoder library message for an error code. -/
  av_err2str : Int → String
  /-- Value of `AVERROR(EAGAIN)`. -/
  AVERROR_EAGAIN : Int
  /-- Value of `AVERROR_EOF`. -/
  AVERROR_EOF : Int
  /-- Pointer returned by the `i`-th `avcodec_alloc_context3` (`0` is `NULL`). -/
  avcodec_alloc_context3 : Nat → Nat
  /-- Pointer returned by the `i`-th `avcodec_find_decoder` (`0` is `NULL`). -/
  avcodec_find_decoder : Nat → Nat
  /-- Return code of the `i`-th `avcodec_open2`. -/
  avcodec_open2 : Nat → Int

/-- Process state. -/
structure World where
  /-- Contents of `h264.raw`. -/
  file : List Byte
  /-- Everything written to standard output. -/
  stdout : String
  /-- Everything written to the error stream. -/
  stderr : String
  /-- The `static int frame_count` of `decode_frame`. -/
  frame_count : Int
  fopenCalls : Nat
  fwriteCalls : Nat
  sendCalls : Nat
  receiveCalls : Nat
  allocCalls : Nat
  findCalls : Nat
  openCalls : Nat

/-- The state at process start: empty streams, an absent (empty) output file,
`frame_count = 0`, no external call made yet. -/
def World.init : World :=
  { file := [], stdout := "", stderr := "", frame_count := 0, fopenCalls := 0,
    fwriteCalls := 0, sendCalls := 0, receiveCalls := 0, allocCalls := 0,
    findCalls := 0, openCalls := 0 }

/-! ## The program -/

/-- The call `fwrite(ptr, 1, nmemb, file)` on the stream of `h264.raw`, opened for
appending: reads `nmemb` bytes at `ptr` and appends as many as the stream accepts. -/
def fwrite (env : Env) (ptr : BytePtr) (nmemb : Int) (w : World) : Option World :=
  match ptr.read (toSizeT nmemb) with
  | none => none
  | some bytes =>
    some { w with
      file := w.file ++ bytes.take (env.fwrite w.fwriteCalls (toSizeT nmemb))
      fwriteCalls := w.fwriteCalls + 1 }

/-- The loop `for (int y = y0; y < hi; y++) body`; `hi - y0 + 1` units of fuel are
enough for it to run to its end (`forLoop_fuel`). -/
def forLoop (hi : Int) (body : Int → World → Option World) :
    Nat → Int → World → Option World
  | 0, _, _ => none
  | fuel + 1, y, w =>
    if y < hi then (body y w).bind (forLoop hi body fuel (y + 1)) else some w

/-- One loop body of the serializer:
`fwrite(avframe->data[i] + y * avframe->linesize[i], 1, n, file)`. -/
def writeRow (env : Env) (avframe : AVFrame) (i : Nat) (n : Int) (y : Int) (w : World) :
    Option World :=
  (mulInt y (avframe.linesize i)).bind fun o =>
  ((avframe.data i).add o).bind fun p =>
  fwrite env p n w

/-- The function `append_frame_to_file`. -/
def append_frame_to_file (env : Env) (avframe : AVFrame) (w : World) : Option World :=
  let file := env.fopen w.fopenCalls
  let w := { w with fopenCalls := w.fopenCalls + 1 }
  if !file then
    some { w with stderr := w.stderr ++ "Could not open file" }
  else
    (forLoop avframe.height (writeRow env avframe 0 avframe.width)
      (avframe.height.toNat + 1) 0 w).bind fun w =>
    (forLoop (avframe.height.tdiv 2) (writeRow env avframe 1 (avframe.width.tdiv 2))
      ((avframe.height.tdiv 2).toNat + 1) 0 w).bind fun w =>
    (forLoop (avframe.height.tdiv 2) (writeRow env avframe 2 (avframe.width.tdiv 2))
      ((avframe.height.tdiv 2).toNat + 1) 0 w).bind fun w =>
    some w

/-- The text `"[%d] Frame written: width=%d, height=%d\n"` formatted. -/
def progressLine (count width height : Int) : String :=
  "[" ++ toString count ++ "] Frame written: width=" ++ toString width ++
    ", height=" ++ toString height ++ "\n"

/-- The text `"Can't send packet: %s\n"` formatted. -/
def sendDiagnostic (msg : String) : String := "Can\x27t send packet: " ++ msg ++ "\n"

/-- The text `"Can't receive frame: %s\n"` formatted. -/
def receiveDiagnostic (msg : String) : String := "Can\x27t receive frame: " ++ msg ++ "\n"

/-- The loop `while (1) { ... }` of `decode_frame`, with fuel. -/
def drain (env : Env) : Nat → World → Option World
  | 0, _ => none
  | fuel + 1, w =>
    let r := env.avcodec_receive_frame w.receiveCalls
    let ret := r.1
    let avframe := r.2
    let w := { w with receiveCalls := w.receiveCalls + 1 }
    if ret = env.AVERROR_EAGAIN ∨ ret = env.AVERROR_EOF then
      some w
    else if ret < 0 then
      some { w with stderr := w.stderr ++ receiveDiagnostic (env.av_err2str ret) }
    else
      (append_frame_to_file env avframe w).bind fun w =>
      if w.frame_count < INT_MAX then
        let w := { w with frame_count := w.frame_count + 1 }
        let w := { w with
          stdout := w.stdout ++ progressLine w.frame_count avframe.width avframe.height }
        drain env fuel w
      else none

/-- The function `decode_frame`; `pkt` is the access unit (`pktlen` is its length).
The frame, the packet and the padded copy of the access unit are taken to be allocated
with success; freeing them at `clear:` leaves the modelled state as it is. -/
def decode_frame (env : Env) (fuel : Nat) (avctx : Nat) (pkt : List Byte) (w : World) :
    Option World :=
  let ret := env.avcodec_send_packet w.sendCalls
  let w := { w with sendCalls := w.sendCalls + 1 }
  if ret < 0 then
    some { w with stderr := w.stderr ++ sendDiagnostic (env.av_err2str ret) }
  else
    drain env fuel w

/-- The function `init_ctx`; `avcc` is the configuration record (`avcclen` is its
length).  The result is the returned pointer (`0` is `NULL`). -/
def init_ctx (env : Env) (avcc : List Byte) (w : World) : Option (Nat × World) :=
  let avctx := env.avcodec_alloc_context3 w.allocCalls
  let w := { w with allocCalls := w.allocCalls + 1 }
  -- `avcodec_parameters_to_context(avctx, params)` dereferences `avctx`
  if avctx = 0 then none
  else
    let codec := env.avcodec_find_decoder w.findCalls
    let w := { w with findCalls := w.findCalls + 1 }
    -- `avcodec_open2(avctx, codec, NULL);` the return code is dropped
    let opened := env.avcodec_open2 w.openCalls
    let w := { w with openCalls := w.openCalls + 1 }
    some (avctx, w)

/-! ## Vocabulary of the specification -/

/-- The byte `p[k]` (`0` where `p + k` is outside the object). -/
def BytePtr.index (p : BytePtr) (k : Int) : Byte :=
  if 0 ≤ p.off + k then p.block.getD (p.off + k).toNat 0 else 0

/-- The `n` bytes `p[o .. o+n)`. -/
def rowBytes (p : BytePtr) (o : Int) (n : Nat) : List Byte :=
  (List.range n).map fun (j : Nat) => p.index (o + (j : Int))

/-- Rows `0 .. h-1` of a plane with stride `ls`, the first `n` bytes of each. -/
def planeBytes (p : BytePtr) (ls : Int) (n h : Nat) : List Byte :=
  (List.range h).flatMap fun (y : Nat) => rowBytes p ((y : Int) * ls) n

/-- The frame block the specification prescribes for a picture: luma rows, then
chroma-blue rows, then chroma-red rows, the chroma planes at half width and height. -/
def frameBlock (f : AVFrame) : List Byte :=
  planeBytes (f.data 0) (f.linesize 0) f.width.toNat f.height.toNat ++
  (planeBytes (f.data 1) (f.linesize 1) (f.width / 2).toNat (f.height / 2).toNat ++
   planeBytes (f.data 2) (f.linesize 2) (f.width / 2).toNat (f.height / 2).toNat)

/-- Rows `0 .. h-1` of `n` bytes at stride `ls` lie inside the buffer of `p`, at
offsets an `int` can hold: the plane buffer is large enough for the rows read. -/
def RowsIn (p : BytePtr) (ls : Int) (n h : Nat) : Prop :=
  ∀ y : Nat, y < h →
    INT_MIN ≤ (y : Int) * ls ∧ (y : Int) * ls ≤ INT_MAX ∧
    0 ≤ p.off + (y : Int) * ls ∧ p.off + (y : Int) * ls + (n : Int) ≤ (p.block.length : Int)

instance (p : BytePtr) (ls : Int) (n h : Nat) : Decidable (RowsIn p ls n h) := by
  unfold RowsIn; infer_instance

/-- The three plane buffers of a frame are large enough for the rows the serializer
reads. -/
def PlanesIn (f : AVFrame) : Prop :=
  RowsIn (f.data 0) (f.linesize 0) f.width.toNat f.height.toNat ∧
  RowsIn (f.data 1) (f.linesize 1) (f.width / 2).toNat (f.height / 2).toNat ∧
  RowsIn (f.data 2) (f.linesize 2) (f.width / 2).toNat (f.height / 2).toNat

instance (f : AVFrame) : Decidable (PlanesIn f) := by
  unfold PlanesIn; infer_instance

/-- A picture: `int` dimensions that are not negative, and plane buffers large
enough for the rows read. -/
def AVFrame.Picture (f : AVFrame) : Prop :=
  0 ≤ f.width ∧ f.width ≤ INT_MAX ∧ 0 ≤ f.height ∧ PlanesIn f

instance (f : AVFrame) : Decidable f.Picture := by
  unfold AVFrame.Picture; infer_instance

/-- The output stream accepts every write in full. -/
def WritesAccepted (env : Env) : Prop := ∀ i n, env.fwrite i n = n

/-- Number of `fwrite` calls one serialization of `f` makes. -/
def rowCount (f : AVFrame) : Nat :=
  f.height.toNat + ((f.height / 2).toNat + (f.height / 2).toNat)

/-- The frame the `i`-th `avcodec_receive_frame` call fills in. -/
def receivedFrame (env : Env) (i : Nat) : AVFrame := (env.avcodec_receive_frame i).2

/-- The `i`-th receive call yields a picture: its return code is neither of the two
flow-control codes nor negative. -/
def Delivers (env : Env) (i : Nat) : Prop :=
  (env.avcodec_receive_frame i).1 ≠ env.AVERROR_EAGAIN ∧
  (env.avcodec_receive_frame i).1 ≠ env.AVERROR_EOF ∧
  0 ≤ (env.avcodec_receive_frame i).1

instance (env : Env) (i : Nat) : Decidable (Delivers env i) := by
  unfold Delivers; infer_instance

/-- The `i`-th receive call answers "no output available" or "end of stream". -/
def FlowControl (env : Env) (i : Nat) : Prop :=
  (env.avcodec_receive_frame i).1 = env.AVERROR_EAGAIN ∨
  (env.avcodec_receive_frame i).1 = env.AVERROR_EOF

instance (env : Env) (i : Nat) : Decidable (FlowControl env i) := by
  unfold FlowControl; infer_instance

/-- The `i`-th receive call answers a negative code other than the two flow-control
codes. -/
def Fails (env : Env) (i : Nat) : Prop :=
  (env.avcodec_receive_frame i).1 ≠ env.AVERROR_EAGAIN ∧
  (env.avcodec_receive_frame i).1 ≠ env.AVERROR_EOF ∧
  (env.avcodec_receive_frame i).1 < 0

instance (env : Env) (i : Nat) : Decidable (Fails env i) := by
  unfold Fails; infer_instance

/-- The frames of receive calls `n, n+1, .., n+k-1`, in call order. -/
def received (env : Env) (n k : Nat) : List AVFrame :=
  (List.range' n k).map (receivedFrame env)

/-- The progress lines the specification prescribes for the pictures `ps`, the counter
standing at `c` before the first of them: one line
`[<count>] Frame written: width=<w>, height=<h>` per picture, the counts being
`c + 1, c + 2, ..` and the dimensions those of the picture. -/
def progressText (c : Int) : List AVFrame → String
  | [] => ""
  | p :: ps =>
    ("[" ++ toString (c + 1) ++ "] Frame written: width=" ++ toString p.width ++
      ", height=" ++ toString p.height ++ "\n") ++ progressText (c + 1) ps

/-- The serializer invoked on each picture of a list, in list order, and nothing
else. -/
def serializeAll (env : Env) : List AVFrame → World → Option World
  | [], w => some w
  | p :: ps, w => (append_frame_to_file env p w).bind (serializeAll env ps)

/-- Two states with the same output file, error stream and stream call counters:
all that the serializer reads or writes. -/
def SameSink (a b : World) : Prop :=
  a.file = b.file ∧ a.stderr = b.stderr ∧ a.fopenCalls = b.fopenCalls ∧
  a.fwriteCalls = b.fwriteCalls

/-- The text `"Could not open file"` repeated `n` times. -/
def openDiagnostics : Nat → String
  | 0 => ""
  | n + 1 => "Could not open file" ++ openDiagnostics n

/-- Two planes hold the same bytes in the first `n` positions of rows `0 .. h-1`;
what lies between the logical width and the stride is left free. -/
def SamePlane (p q : BytePtr) (ls lt : Int) (n h : Nat) : Prop :=
  ∀ y : Nat, y < h → ∀ j : Nat, j < n →
    p.index ((y : Int) * ls + (j : Int)) = q.index ((y : Int) * lt + (j : Int))

/-- Two frames of the same dimensions that differ at most in stride and padding. -/
def SameLogicalBytes (f g : AVFrame) : Prop :=
  g.width = f.width ∧ g.height = f.height ∧
  SamePlane (f.data 0) (g.data 0) (f.linesize 0) (g.linesize 0) f.width.toNat f.height.toNat ∧
  SamePlane (f.data 1) (g.data 1) (f.linesize 1) (g.linesize 1)
    (f.width / 2).toNat (f.height / 2).toNat ∧
  SamePlane (f.data 2) (g.data 2) (f.linesize 2) (g.linesize 2)
    (f.width / 2).toNat (f.height / 2).toNat

/-! ## Sample inputs -/

/-- A plane pointer to the start of a buffer. -/
def planeOf (bytes : List Byte) : BytePtr := { block := bytes, off := 0 }

/-- A 4x2 picture: luma stride 6, chroma stride 4, the padding bytes are `238`. -/
def sampleFrame : AVFrame :=
  { data := fun i =>
      if i = 0 then planeOf [10, 11, 12, 13, 238, 238, 20, 21, 22, 23, 238, 238]
      else if i = 1 then planeOf [30, 31, 238, 238]
      else planeOf [40, 41, 238, 238]
    linesize := fun i => if i = 0 then 6 else 4
    width := 4
    height := 2 }

/-- A 3x3 picture (odd dimensions): three luma rows at stride 4, one chroma byte per
chroma plane. -/
def oddFrame : AVFrame :=
  { data := fun i =>
      if i = 0 then planeOf [1, 2, 3, 238, 4, 5, 6, 238, 7, 8, 9, 238]
      else if i = 1 then planeOf [50, 238]
      else planeOf [60, 238]
    linesize := fun i => if i = 0 then 4 else 2
    width := 3
    height := 3 }

/-- A 4x2 picture stored bottom-up: the luma pointer is at the last row of its buffer
and the luma stride is negative. -/
def flippedFrame : AVFrame :=
  { data := fun i =>
      if i = 0 then
        { block := [20, 21, 22, 23, 238, 238, 10, 11, 12, 13, 238, 238], off := 6 }
      else if i = 1 then planeOf [30, 31, 238, 238]
      else planeOf [40, 41, 238, 238]
    linesize := fun i => if i = 0 then -6 else 4
    width := 4
    height := 2 }

/-- A frame without plane buffers (null planes of an unreferenced frame), with the
dimensions 4x2 all the same. -/
def emptyFrame : AVFrame :=
  { data := fun _ => planeOf [], linesize := fun _ => 0, width := 4, height := 2 }

/-- An environment from a script: every `fopen` answers `opens`, every `fwrite` is
accepted in full, every submit returns `sendRet`, the receive calls answer the entries
of `script` in turn and "no output available" (`-11`) after them. -/
def scriptEnv (opens : Bool) (sendRet : Int) (script : List (Int × AVFrame)) : Env :=
  { fopen := fun _ => opens
    fwrite := fun _ n => n
    avcodec_send_packet := fun _ => sendRet
    avcodec_receive_frame := fun i => script.getD i (-11, emptyFrame)
    av_err2str := fun _ => "Invalid data found when processing input"
    AVERROR_EAGAIN := -11
    AVERROR_EOF := -541478725
    avcodec_alloc_context3 := fun _ => 1
    avcodec_find_decoder := fun _ => 1
    avcodec_open2 := fun _ => 0 }

/-- The decoder yields a 4x2 picture, then a 3x3 picture, then "no output available";
the output file opens. -/
def twoPictureEnv : Env := scriptEnv true 0 [(0, sampleFrame), (0, oddFrame)]

/-- The decoder yields a 4x2 picture, a 3x3 picture and a 4x2 frame without plane
buffers, then "no output available"; the output file never opens. -/
def closedFileEnv : Env :=
  scriptEnv false 0 [(0, sampleFrame), (0, oddFrame), (0, emptyFrame)]

/-- A sequence of `decode_frame` calls, each with its own context and access unit. -/
def decodeAll (env : Env) (fuel : Nat) : List (Nat × List Byte) → World → Option World
  | [], w => some w
  | call :: rest, w =>
    (decode_frame env fuel call.1 call.2 w).bind (decodeAll env fuel rest)

/-- The pictures that the first `n` receive calls of the process yield, in order. -/
def pictures (env : Env) (n : Nat) : List AVFrame :=
  ((List.range n).filter fun i => decide (Delivers env i)).map (receivedFrame env)

/-- The progress lines of the specification for the pictures `ps`: the `i`-th of them
(from 1) is numbered `i` and carries the dimensions of the `i`-th picture. -/
def numberedLines (ps : List AVFrame) : List String :=
  ps.enum.map fun ip =>
    "[" ++ toString ((ip.1 : Int) + 1) ++ "] Frame written: width=" ++ toString ip.2.width ++
      ", height=" ++ toString ip.2.height ++ "\n"

/-- The text made of the given lines, in order. -/
def concatLines : List String → String
  | [] => ""
  | l :: ls => l ++ concatLines ls

/-- An environment in which the decoder is neither found nor opened: `fopen` succeeds,
but `avcodec_find_decoder` answers `NULL` and `avcodec_open2` answers `-22`. -/
def noDecoderEnv : Env :=
  { scriptEnv true 0 [] with
    avcodec_find_decoder := fun _ => 0
    avcodec_open2 := fun _ => -22 }

/-- The state after some receive calls of a process in which every picture received
so far was counted and reported once, in order. -/
def Reported (env : Env) (w : World) : Prop :=
  w.frame_count = ((pictures env w.receiveCalls).length : Int) ∧
  w.stdout = progressText 0 (pictures env w.receiveCalls)

/-- An environment with a mix of outcomes: the second submit fails, the second `fopen`
fails, and the receive calls answer a 4x2 picture, a 3x3 picture, "no output
available", a 4x2 picture, an error, and "no output available" from then on. -/
def mixedEnv : Env :=
  { scriptEnv true 0
      [(0, sampleFrame), (0, oddFrame), (-11, emptyFrame), (0, sampleFrame),
        (-1094995529, emptyFrame)] with
    fopen := fun i => decide (i ≠ 1)
    avcodec_send_packet := fun i => if i = 1 then -22 else 0 }

/-! ## Proofs: the serializer -/

theorem tdiv_two_eq {a : Int} (h : 0 ≤ a) : a.tdiv 2 = a / 2 := by
  rw [Int.tdiv_eq_ediv] <;> omega

theorem toSizeT_of_int {n : Int} (h0 : 0 ≤ n) (h1 : n ≤ INT_MAX) : toSizeT n = n.toNat := by
  unfold toSizeT SIZE_MODULUS
  unfold INT_MAX at h1
  rw [Int.emod_eq_of_lt h0 (by omega)]

theorem read_add (p : BytePtr) (o : Int) (n : Nat) (h0 : 0 ≤ p.off + o)
    (h1 : p.off + o + (n : Int) ≤ (p.block.length : Int)) :
    (p.add o).bind (fun q => q.read n) = some (rowBytes p o n) := by
  have hadd : p.add o = some { block := p.block, off := p.off + o } := by
    unfold BytePtr.add
    rw [if_pos ⟨h0, by omega⟩]
  rw [hadd]
  simp only [Option.some_bind, BytePtr.read]
  rw [if_pos ⟨h0, h1⟩]
  congr 1
  apply List.ext_getElem
  · simp [rowBytes]
    omega
  · intro j hj1 hj2
    simp only [rowBytes, List.length_map, List.length_range] at hj2
    simp only [rowBytes, List.getElem_take, List.getElem_drop, List.getElem_map,
      List.getElem_range, BytePtr.index]
    rw [if_pos (by omega)]
    have : (p.off + (o + (j : Int))).toNat = (p.off + o).toNat + j := by omega
    rw [this, List.getD_eq_getElem?_getD, List.getElem?_eq_getElem (by omega)]
    rfl

theorem forLoop_fuel (hi : Int) (body : Int → World → Option World)
    (hbody : ∀ y w, (body y w).isSome = true) :
    ∀ (fuel : Nat) (y : Int) (w : World), (hi - y).toNat < fuel →
      (forLoop hi body fuel y w).isSome = true := by
  intro fuel
  induction fuel with
  | zero => intro y w h; omega
  | succ fuel ih =>
    intro y w h
    unfold forLoop
    by_cases hlt : y < hi
    · rw [if_pos hlt]
      obtain ⟨a, ha⟩ := Option.isSome_iff_exists.1 (hbody y w)
      rw [ha, Option.some_bind]
      exact ih (y + 1) a (by omega)
    · rw [if_neg hlt]
      rfl

theorem writeRow_eq (env : Env) (f : AVFrame) (i : Nat) (n : Int) (y : Nat) (w : World)
    (hn0 : 0 ≤ n) (hn1 : n ≤ INT_MAX)
    (hrow : INT_MIN ≤ (y : Int) * f.linesize i ∧ (y : Int) * f.linesize i ≤ INT_MAX ∧
      0 ≤ (f.data i).off + (y : Int) * f.linesize i ∧
      (f.data i).off + (y : Int) * f.linesize i + (n.toNat : Int)
        ≤ ((f.data i).block.length : Int)) :
    writeRow env f i n y w =
      some { w with
        file := w.file ++ (rowBytes (f.data i) ((y : Int) * f.linesize i) n.toNat).take
          (env.fwrite w.fwriteCalls n.toNat)
        fwriteCalls := w.fwriteCalls + 1 } := by
  obtain ⟨h1, h2, h3, h4⟩ := hrow
  have hr := read_add (f.data i) ((y : Int) * f.linesize i) n.toNat h3 h4
  unfold writeRow mulInt
  rw [if_pos ⟨h1, h2⟩, Option.some_bind]
  cases hq : (f.data i).add ((y : Int) * f.linesize i) with
  | none => rw [hq] at hr; simp at hr
  | some q =>
    rw [hq, Option.some_bind] at hr
    rw [Option.some_bind]
    unfold fwrite
    rw [toSizeT_of_int hn0 hn1, hr]

theorem take_accepted (env : Env) (hacc : WritesAccepted env) (p : BytePtr) (o : Int)
    (n c : Nat) : (rowBytes p o n).take (env.fwrite c n) = rowBytes p o n := by
  rw [hacc c n]
  apply List.take_of_length_le
  simp [rowBytes]

theorem forLoop_rows (env : Env) (f : AVFrame) (i : Nat) (n hi : Int)
    (hn0 : 0 ≤ n) (hn1 : n ≤ INT_MAX)
    (hrows : RowsIn (f.data i) (f.linesize i) n.toNat hi.toNat) :
    ∀ (fuel y c : Nat), hi.toNat - y < fuel → y ≤ hi.toNat →
      ∃ B : List Byte,
        (WritesAccepted env →
          B = (List.range' y (hi.toNat - y)).flatMap
            (fun (k : Nat) => rowBytes (f.data i) ((k : Int) * f.linesize i) n.toNat)) ∧
        ∀ w : World, w.fwriteCalls = c →
          forLoop hi (writeRow env f i n) fuel (y : Int) w =
            some { w with file := w.file ++ B, fwriteCalls := c + (hi.toNat - y) } := by
  intro fuel
  induction fuel with
  | zero => intro y c h; omega
  | succ fuel ih =>
    intro y c hfuel hy
    by_cases hlt : (y : Int) < hi
    · have hy2 : y < hi.toNat := by omega
      obtain ⟨B, hB, hloop⟩ := ih (y + 1) (c + 1) (by omega) (by omega)
      have hsplit : hi.toNat - y = (hi.toNat - (y + 1)) + 1 := by omega
      refine ⟨(rowBytes (f.data i) ((y : Int) * f.linesize i) n.toNat).take
          (env.fwrite c n.toNat) ++ B, ?_, ?_⟩
      · intro hacc
        rw [hB hacc, take_accepted env hacc, hsplit, List.range'_succ, List.flatMap_cons]
      · intro w hc
        unfold forLoop
        rw [if_pos hlt, writeRow_eq env f i n y w hn0 hn1 (hrows y hy2), Option.some_bind]
        have hcast : ((y : Int) + 1) = ((y + 1 : Nat) : Int) := by push_cast; rfl
        rw [hcast, hloop _ (by simp [hc])]
        subst hc
        simp only [List.append_assoc]
        congr 2
        omega
    · have hz : hi.toNat - y = 0 := by omega
      refine ⟨[], ?_, ?_⟩
      · intro _; rw [hz]; rfl
      · intro w hc
        unfold forLoop
        rw [if_neg hlt, hz]
        subst hc
        simp

theorem forLoop_plane (env : Env) (f : AVFrame) (i : Nat) (n hi : Int)
    (hn0 : 0 ≤ n) (hn1 : n ≤ INT_MAX)
    (hrows : RowsIn (f.data i) (f.linesize i) n.toNat hi.toNat) (c : Nat) :
    ∃ B : List Byte,
      (WritesAccepted env → B = planeBytes (f.data i) (f.linesize i) n.toNat hi.toNat) ∧
      ∀ w : World, w.fwriteCalls = c →
        forLoop hi (writeRow env f i n) (hi.toNat + 1) 0 w =
          some { w with file := w.file ++ B, fwriteCalls := c + hi.toNat } := by
  obtain ⟨B, hB, hloop⟩ := forLoop_rows env f i n hi hn0 hn1 hrows (hi.toNat + 1) 0 c
    (by omega) (by omega)
  simp only [Nat.cast_zero, Nat.sub_zero] at hB hloop
  refine ⟨B, ?_, hloop⟩
  intro hacc
  rw [hB hacc, planeBytes, List.range_eq_range']

/-- Effect of the serializer when the stream opens: some bytes `B`, fixed by the
picture and the call counters, are appended; they are the frame block when every
write is accepted. -/
theorem append_frame_to_file_open (env : Env) (f : AVFrame) (hf : f.Picture) (o c : Nat)
    (hopen : env.fopen o = true) :
    ∃ B : List Byte,
      (WritesAccepted env → B = frameBlock f) ∧
      ∀ w : World, w.fopenCalls = o → w.fwriteCalls = c →
        append_frame_to_file env f w =
          some { w with
            file := w.file ++ B
            fopenCalls := o + 1
            fwriteCalls := c + rowCount f } := by
  obtain ⟨hw, hwmax, hh, h0, h1, h2⟩ := hf
  have hw2 : 0 ≤ f.width / 2 := by omega
  have hw2max : f.width / 2 ≤ INT_MAX := by unfold INT_MAX at *; omega
  obtain ⟨B0, hB0, hl0⟩ := forLoop_plane env f 0 f.width f.height hw hwmax h0 c
  obtain ⟨B1, hB1, hl1⟩ := forLoop_plane env f 1 (f.width / 2) (f.height / 2) hw2 hw2max h1
    (c + f.height.toNat)
  obtain ⟨B2, hB2, hl2⟩ := forLoop_plane env f 2 (f.width / 2) (f.height / 2) hw2 hw2max h2
    (c + f.height.toNat + (f.height / 2).toNat)
  refine ⟨B0 ++ (B1 ++ B2), ?_, ?_⟩
  · intro hacc
    rw [hB0 hacc, hB1 hacc, hB2 hacc, frameBlock]
  · intro w ho hc
    unfold append_frame_to_file
    subst ho
    simp only [hopen, Bool.not_true, Bool.false_eq_true, if_false]
    rw [tdiv_two_eq hw, tdiv_two_eq hh]
    rw [hl0, Option.some_bind, hl1, Option.some_bind, hl2, Option.some_bind]
    all_goals first
      | exact hc
      | rfl
      | simp only [rowCount, List.append_assoc, Nat.add_assoc]

theorem append_frame_to_file_closed (env : Env) (f : AVFrame) (w : World)
    (hopen : env.fopen w.fopenCalls = false) :
    append_frame_to_file env f w =
      some { w with
        stderr := w.stderr ++ "Could not open file"
        fopenCalls := w.fopenCalls + 1 } := by
  unfold append_frame_to_file
  simp [hopen]

/-- Effect of one serializer call, whatever `fopen` answers: bytes `B` appended to the
file, text `E` appended to the error stream, `R` calls of `fwrite`, all fixed by the
picture and the two stream counters. -/
theorem append_frame_to_file_effect (env : Env) (f : AVFrame) (o c : Nat)
    (hdef : env.fopen o = true → f.Picture) :
    ∃ (B : List Byte) (E : String) (R : Nat),
      (env.fopen o = true →
        E = "" ∧ R = rowCount f ∧ (WritesAccepted env → B = frameBlock f)) ∧
      (env.fopen o = false → B = [] ∧ E = "Could not open file" ∧ R = 0) ∧
      ∀ w : World, w.fopenCalls = o → w.fwriteCalls = c →
        append_frame_to_file env f w =
          some { w with
            file := w.file ++ B
            stderr := w.stderr ++ E
            fopenCalls := o + 1
            fwriteCalls := c + R } := by
  cases hopen : env.fopen o with
  | true =>
    obtain ⟨B, hB, heq⟩ := append_frame_to_file_open env f (hdef hopen) o c hopen
    refine ⟨B, "", rowCount f, fun _ => ⟨rfl, rfl, hB⟩, fun h => by simp at h, ?_⟩
    intro w ho hc
    rw [heq w ho hc, String.append_empty]
  | false =>
    refine ⟨[], "Could not open file", 0, fun h => by simp at h,
      fun _ => ⟨rfl, rfl, rfl⟩, ?_⟩
    intro w ho hc
    subst ho hc
    rw [append_frame_to_file_closed env f w hopen]
    simp

/-! ## Proofs: the drain loop -/

theorem drain_step_flow (env : Env) (fuel : Nat) (w : World)
    (h : FlowControl env w.receiveCalls) :
    drain env (fuel + 1) w = some { w with receiveCalls := w.receiveCalls + 1 } := by
  unfold FlowControl at h
  unfold drain
  simp only [if_pos h]

theorem drain_step_fail (env : Env) (fuel : Nat) (w : World)
    (h : Fails env w.receiveCalls) :
    drain env (fuel + 1) w =
      some { w with
        receiveCalls := w.receiveCalls + 1
        stderr := w.stderr ++
          receiveDiagnostic (env.av_err2str (env.avcodec_receive_frame w.receiveCalls).1) } := by
  obtain ⟨h1, h2, h3⟩ := h
  unfold drain
  simp only [if_neg (not_or.2 ⟨h1, h2⟩), if_pos h3]

theorem drain_step_picture (env : Env) (fuel : Nat) (w : World)
    (h : Delivers env w.receiveCalls) :
    drain env (fuel + 1) w =
      (append_frame_to_file env (receivedFrame env w.receiveCalls)
        { w with receiveCalls := w.receiveCalls + 1 }).bind fun a =>
        if a.frame_count < INT_MAX then
          drain env fuel { a with
            frame_count := a.frame_count + 1
            stdout := a.stdout ++ progressLine (a.frame_count + 1)
              (receivedFrame env w.receiveCalls).width
              (receivedFrame env w.receiveCalls).height }
        else none := by
  obtain ⟨h1, h2, h3⟩ := h
  conv_lhs => unfold drain
  simp only [if_neg (not_or.2 ⟨h1, h2⟩), if_neg (not_lt.2 h3), receivedFrame]

theorem received_succ (env : Env) (n k : Nat) :
    received env n (k + 1) = receivedFrame env n :: received env (n + 1) k := by
  simp [received, List.range'_succ]

/-- The loop on `k` pictures in a row: it serializes them in order, prints their
progress lines, and goes on from the state `w1` with the fuel that is left.  The state
`v1` is what the serializer alone, invoked on the same pictures, makes of `v`. -/
theorem drain_pictures (env : Env) :
    ∀ (k : Nat) (w v : World), SameSink w v →
      (∀ i, i < k → Delivers env (w.receiveCalls + i)) →
      (∀ i, i < k → env.fopen (w.fopenCalls + i) = true →
        (receivedFrame env (w.receiveCalls + i)).Picture) →
      w.frame_count + (k : Int) ≤ INT_MAX →
      ∃ w1 v1 : World,
        serializeAll env (received env w.receiveCalls k) v = some v1 ∧
        SameSink w1 v1 ∧
        w1.fopenCalls = w.fopenCalls + k ∧
        w1.stdout = w.stdout ++ progressText w.frame_count (received env w.receiveCalls k) ∧
        w1.frame_count = w.frame_count + (k : Int) ∧
        w1.receiveCalls = w.receiveCalls + k ∧
        w1.sendCalls = w.sendCalls ∧
        (∀ fuel, drain env (k + fuel) w = drain env fuel w1) ∧
        ((∀ i, i < k → env.fopen (w.fopenCalls + i) = true) →
          v1.stderr = v.stderr ∧
          (WritesAccepted env →
            v1.file = v.file ++ (received env w.receiveCalls k).flatMap frameBlock)) ∧
        ((∀ i, i < k → env.fopen (w.fopenCalls + i) = false) →
          v1.file = v.file ∧ v1.stderr = v.stderr ++ openDiagnostics k ∧
          v1.fwriteCalls = v.fwriteCalls) := by
  intro k
  induction k with
  | zero =>
    intro w v hs _ _ _
    refine ⟨w, v, rfl, hs, rfl, ?_, ?_, rfl, rfl, ?_, ?_, ?_⟩
    · simp [received, progressText]
    · simp
    · intro fuel; rw [Nat.zero_add]
    · intro _; simp [received]
    · intro _; simp [openDiagnostics]
  | succ k ih =>
    intro w v hs hdel hpic hcount
    obtain ⟨hs1, hs2, hs3, hs4⟩ := hs
    have hd0 : Delivers env w.receiveCalls := by simpa using hdel 0 (by omega)
    have hp0 : env.fopen w.fopenCalls = true → (receivedFrame env w.receiveCalls).Picture := by
      simpa using hpic 0 (by omega)
    obtain ⟨B, E, R, htrue, hfalse, heff⟩ :=
      append_frame_to_file_effect env (receivedFrame env w.receiveCalls) w.fopenCalls
        w.fwriteCalls hp0
    have hw := heff { w with receiveCalls := w.receiveCalls + 1 } rfl rfl
    have hv := heff v hs3.symm hs4.symm
    obtain ⟨w1, v1, hser, hsame, hopen, hout, hcnt, hrecv, hsend, hdrain, hall, hnone⟩ :=
      ih
        { w with
          receiveCalls := w.receiveCalls + 1
          file := w.file ++ B
          stderr := w.stderr ++ E
          fopenCalls := w.fopenCalls + 1
          fwriteCalls := w.fwriteCalls + R
          frame_count := w.frame_count + 1
          stdout := w.stdout ++ progressLine (w.frame_count + 1)
            (receivedFrame env w.receiveCalls).width
            (receivedFrame env w.receiveCalls).height }
        { v with
          file := v.file ++ B
          stderr := v.stderr ++ E
          fopenCalls := w.fopenCalls + 1
          fwriteCalls := w.fwriteCalls + R }
        ⟨by simp [hs1], by simp [hs2], rfl, rfl⟩
        (fun i hi => by
          have := hdel (i + 1) (by omega)
          simpa [Nat.add_assoc, Nat.add_comm 1 i] using this)
        (fun i hi ho => by
          have := hpic (i + 1) (by omega)
          simp only [Nat.add_assoc, Nat.add_comm 1 i] at ho ⊢
          exact this ho)
        (by simp only; push_cast at hcount; omega)
    simp only at hall hnone
    refine ⟨w1, v1, ?_, hsame, ?_, ?_, ?_, ?_, hsend, ?_, ?_, ?_⟩
    · rw [received_succ, serializeAll, hv, Option.some_bind]
      exact hser
    · rw [hopen]; simp only; omega
    · rw [hout, received_succ, progressText, String.append_assoc]
      rfl
    · rw [hcnt]; simp only; push_cast; omega
    · rw [hrecv]; simp only; omega
    · intro fuel
      have hfuel : k + 1 + fuel = (k + fuel) + 1 := by omega
      have hlt : w.frame_count < INT_MAX := by push_cast at hcount; omega
      rw [hfuel, drain_step_picture env (k + fuel) w hd0, hw, Option.some_bind]
      simp only [if_pos hlt]
      exact hdrain fuel
    · intro hop
      have ho0 : env.fopen w.fopenCalls = true := by simpa using hop 0 (by omega)
      obtain ⟨hE, -, hB⟩ := htrue ho0
      obtain ⟨h1, h2⟩ := hall (fun i hi => by
        have := hop (i + 1) (by omega)
        simpa [Nat.add_assoc, Nat.add_comm 1 i] using this)
      refine ⟨by rw [h1, hE, String.append_empty], fun hacc => ?_⟩
      rw [h2 hacc, hB hacc, received_succ, List.flatMap_cons, List.append_assoc]
    · intro hop
      have ho0 : env.fopen w.fopenCalls = false := by simpa using hop 0 (by omega)
      obtain ⟨hB, hE, hR⟩ := hfalse ho0
      obtain ⟨h1, h2, h3⟩ := hnone (fun i hi => by
        have := hop (i + 1) (by omega)
        simpa [Nat.add_assoc, Nat.add_comm 1 i] using this)
      refine ⟨by rw [h1, hB, List.append_nil], ?_, by rw [h3, hR, hs4]; rfl⟩
      rw [h2, hE, openDiagnostics, String.append_assoc]

/-- One successful submit followed by `k` pictures and then a call that yields none:
`decode_frame` returns, and its result is described field by field; `ws` is what the
serializer alone, invoked on the `k` pictures in order, makes of the initial state. -/
theorem decode_frame_drains (env : Env) (fuel avctx : Nat) (pkt : List Byte) (w : World)
    (k : Nat) (hsend : 0 ≤ env.avcodec_send_packet w.sendCalls)
    (hdel : ∀ i, i < k → Delivers env (w.receiveCalls + i))
    (hpic : ∀ i, i < k → env.fopen (w.fopenCalls + i) = true →
      (receivedFrame env (w.receiveCalls + i)).Picture)
    (hterm : ¬ Delivers env (w.receiveCalls + k))
    (hcount : w.frame_count + (k : Int) ≤ INT_MAX) (hfuel : k < fuel) :
    ∃ w1 ws : World,
      decode_frame env fuel avctx pkt w = some w1 ∧
      serializeAll env (received env w.receiveCalls k) w = some ws ∧
      w1.file = ws.file ∧ w1.fopenCalls = ws.fopenCalls ∧ w1.fwriteCalls = ws.fwriteCalls ∧
      w1.fopenCalls = w.fopenCalls + k ∧
      w1.stdout = w.stdout ++ progressText w.frame_count (received env w.receiveCalls k) ∧
      w1.frame_count = w.frame_count + (k : Int) ∧
      w1.receiveCalls = w.receiveCalls + k + 1 ∧
      w1.sendCalls = w.sendCalls + 1 ∧
      (FlowControl env (w.receiveCalls + k) → w1.stderr = ws.stderr) ∧
      (Fails env (w.receiveCalls + k) →
        w1.stderr = ws.stderr ++ receiveDiagnostic
          (env.av_err2str (env.avcodec_receive_frame (w.receiveCalls + k)).1)) ∧
      ((∀ i, i < k → env.fopen (w.fopenCalls + i) = true) →
        ws.stderr = w.stderr ∧
        (WritesAccepted env →
          ws.file = w.file ++ (received env w.receiveCalls k).flatMap frameBlock)) ∧
      ((∀ i, i < k → env.fopen (w.fopenCalls + i) = false) →
        ws.file = w.file ∧ ws.stderr = w.stderr ++ openDiagnostics k ∧
        ws.fwriteCalls = w.fwriteCalls) := by
  obtain ⟨w1, v1, hser, hsame, hopen, hout, hcnt, hrecv, hsnd, hdrain, hall, hnone⟩ :=
    drain_pictures env k { w with sendCalls := w.sendCalls + 1 } w ⟨rfl, rfl, rfl, rfl⟩
      hdel hpic hcount
  simp only at hser hopen hout hcnt hrecv hsnd hdrain hall hnone
  obtain ⟨hs1, hs2, hs3, hs4⟩ := hsame
  obtain ⟨m, hm⟩ : ∃ m, fuel = k + (m + 1) := ⟨fuel - k - 1, by omega⟩
  have hdec : decode_frame env fuel avctx pkt w = drain env (m + 1) w1 := by
    unfold decode_frame
    simp only [if_neg (not_lt.2 hsend)]
    rw [hm, hdrain]
  by_cases hflow : FlowControl env (w.receiveCalls + k)
  · have hnf : ¬ Fails env (w.receiveCalls + k) := by
      intro hf
      rcases hflow with h | h
      · exact hf.1 h
      · exact hf.2.1 h
    refine ⟨{ w1 with receiveCalls := w1.receiveCalls + 1 }, v1, ?_, hser, hs1, hs3, hs4,
      hopen, hout, hcnt, by simp only [hrecv], hsnd, fun _ => hs2, fun hf => absurd hf hnf,
      hall, hnone⟩
    rw [hdec, drain_step_flow env m w1 (by rw [hrecv]; exact hflow)]
  · have hfail : Fails env (w.receiveCalls + k) := by
      unfold FlowControl at hflow
      unfold Delivers at hterm
      unfold Fails
      push_neg at hflow hterm
      exact ⟨hflow.1, hflow.2, hterm hflow.1 hflow.2⟩
    refine ⟨{ w1 with
        receiveCalls := w1.receiveCalls + 1
        stderr := w1.stderr ++ receiveDiagnostic
          (env.av_err2str (env.avcodec_receive_frame w1.receiveCalls).1) }, v1, ?_, hser,
      hs1, hs3, hs4, hopen, hout, hcnt, by simp only [hrecv], hsnd,
      fun hf => absurd hf hflow, fun _ => by simp only [hs2, hrecv], hall, hnone⟩
    rw [hdec, drain_step_fail env m w1 (by rw [hrecv]; exact hfail)]

theorem scriptEnv_accepts (opens : Bool) (sendRet : Int) (script : List (Int × AVFrame)) :
    WritesAccepted (scriptEnv opens sendRet script) := fun _ _ => rfl

theorem planeBytes_congr (p q : BytePtr) (ls lt : Int) (n h : Nat)
    (hsame : SamePlane p q ls lt n h) : planeBytes p ls n h = planeBytes q lt n h := by
  have hrow : ∀ y ∈ List.range h,
      rowBytes p ((y : Int) * ls) n = rowBytes q ((y : Int) * lt) n := by
    intro y hy
    unfold rowBytes
    apply List.map_congr_left
    intro j hj
    exact hsame y (List.mem_range.1 hy) j (List.mem_range.1 hj)
  unfold planeBytes
  simp only [List.flatMap]
  rw [List.map_congr_left hrow]

theorem frameBlock_congr (f g : AVFrame) (h : SameLogicalBytes f g) :
    frameBlock g = frameBlock f := by
  obtain ⟨hw, hh, h0, h1, h2⟩ := h
  unfold frameBlock
  rw [hw, hh, planeBytes_congr _ _ _ _ _ _ h0, planeBytes_congr _ _ _ _ _ _ h1,
    planeBytes_congr _ _ _ _ _ _ h2]

theorem planeBytes_length (p : BytePtr) (ls : Int) (n h : Nat) :
    (planeBytes p ls n h).length = h * n := by
  unfold planeBytes
  induction h with
  | zero => simp
  | succ h ih =>
    rw [List.range_succ, List.flatMap_append, List.length_append, ih]
    simp [rowBytes, Nat.succ_mul]

theorem frameBlock_length (f : AVFrame) (hw : 0 ≤ f.width) (hh : 0 ≤ f.height) :
    ((frameBlock f).length : Int) =
      f.width * f.height + 2 * ((f.width / 2) * (f.height / 2)) := by
  have hw2 : 0 ≤ f.width / 2 := by omega
  have hh2 : 0 ≤ f.height / 2 := by omega
  unfold frameBlock
  simp only [List.length_append, planeBytes_length]
  push_cast
  rw [Int.toNat_of_nonneg hw, Int.toNat_of_nonneg hh, Int.toNat_of_nonneg hw2,
    Int.toNat_of_nonneg hh2]
  ring

theorem not_delivers_of_flow (env : Env) (i : Nat) (h : FlowControl env i) :
    ¬ Delivers env i := by
  intro hd
  rcases h with h | h
  · exact hd.1 h
  · exact hd.2.1 h

theorem not_delivers_of_fails (env : Env) (i : Nat) (h : Fails env i) : ¬ Delivers env i := by
  intro hd
  have h1 := h.2.2
  have h2 := hd.2.2
  omega

theorem received_length (env : Env) (n k : Nat) : (received env n k).length = k := by
  simp [received]

/-! ## Proofs: runs of calls -/

theorem pictures_succ_of_not_delivers (env : Env) (m : Nat) (h : ¬ Delivers env m) :
    pictures env (m + 1) = pictures env m := by
  simp [pictures, List.range_succ, List.filter_append, h]

theorem pictures_succ_of_delivers (env : Env) (m : Nat) (h : Delivers env m) :
    pictures env (m + 1) = pictures env m ++ [receivedFrame env m] := by
  simp [pictures, List.range_succ, List.filter_append, h]

theorem received_concat (env : Env) (n k : Nat) :
    received env n (k + 1) = received env n k ++ [receivedFrame env (n + k)] := by
  simp [received, List.range'_concat]

theorem pictures_add (env : Env) (n : Nat) :
    ∀ k, (∀ i, i < k → Delivers env (n + i)) →
      pictures env (n + k) = pictures env n ++ received env n k := by
  intro k
  induction k with
  | zero => intro _; simp [received]
  | succ k ih =>
    intro h
    rw [← Nat.add_assoc, pictures_succ_of_delivers env (n + k) (h k (by omega)),
      ih (fun i hi => h i (by omega)), received_concat, List.append_assoc]

theorem pictures_length_mono (env : Env) (n : Nat) :
    ∀ d, (pictures env n).length ≤ (pictures env (n + d)).length := by
  intro d
  induction d with
  | zero => simp
  | succ d ih =>
    rw [← Nat.add_assoc]
    by_cases h : Delivers env (n + d)
    · rw [pictures_succ_of_delivers env _ h, List.length_append]
      omega
    · rw [pictures_succ_of_not_delivers env _ h]
      exact ih

theorem progressText_append (ps qs : List AVFrame) :
    ∀ c : Int, progressText c (ps ++ qs) =
      progressText c ps ++ progressText (c + (ps.length : Int)) qs := by
  induction ps with
  | nil => intro c; simp [progressText]
  | cons p ps ih =>
    intro c
    have hc : c + 1 + (ps.length : Int) = c + ((ps.length + 1 : Nat) : Int) := by
      push_cast
      ring
    rw [List.cons_append, progressText, progressText, ih (c + 1), List.length_cons, hc]
    simp only [String.append_assoc]

theorem progressText_eq_numbered (ps : List AVFrame) :
    ∀ m : Nat, progressText (m : Int) ps =
      concatLines ((ps.enumFrom m).map fun ip =>
        "[" ++ toString ((ip.1 : Int) + 1) ++ "] Frame written: width=" ++
          toString ip.2.width ++ ", height=" ++ toString ip.2.height ++ "\n") := by
  induction ps with
  | nil => intro m; simp [progressText, concatLines]
  | cons p ps ih =>
    intro m
    have h := ih (m + 1)
    push_cast at h
    simp only [progressText, List.enumFrom_cons, List.map_cons, concatLines, h]

/-- One call of `decode_frame` from a state where every picture so far was reported:
it returns, whatever the submit and the drain do, and every picture is again reported. -/
theorem decode_frame_reports (env : Env) (fuel avctx : Nat) (pkt : List Byte) (w : World)
    (M : Nat) (hfuel : 0 < fuel) (hM : w.receiveCalls + fuel ≤ M)
    (hwin : ∀ n, n < M → ∃ j, j < fuel ∧ ¬ Delivers env (n + j))
    (hpic : ∀ i, i < M → Delivers env i → (receivedFrame env i).Picture)
    (hmax : ((pictures env M).length : Int) ≤ INT_MAX)
    (hrep : Reported env w) :
    ∃ w1 : World,
      decode_frame env fuel avctx pkt w = some w1 ∧
      w1.receiveCalls ≤ w.receiveCalls + fuel ∧ Reported env w1 := by
  obtain ⟨hc, ho⟩ := hrep
  by_cases hsend : env.avcodec_send_packet w.sendCalls < 0
  · refine ⟨{ w with
        sendCalls := w.sendCalls + 1
        stderr := w.stderr ++
          sendDiagnostic (env.av_err2str (env.avcodec_send_packet w.sendCalls)) },
      by unfold decode_frame; simp only [if_pos hsend], ?_, ⟨hc, ho⟩⟩
    simp only
    omega
  · have hex := hwin w.receiveCalls (by omega)
    classical
    have hspec := Nat.find_spec hex
    have hmin : ∀ i, i < Nat.find hex → Delivers env (w.receiveCalls + i) := by
      intro i hi
      by_contra hnd
      exact Nat.find_min hex hi ⟨by omega, hnd⟩
    generalize Nat.find hex = k at hspec hmin
    obtain ⟨hk, hterm⟩ := hspec
    have hadd := pictures_add env w.receiveCalls k hmin
    have hlen : (pictures env w.receiveCalls).length + k ≤ (pictures env M).length := by
      have h1 := pictures_length_mono env (w.receiveCalls + k) (M - (w.receiveCalls + k))
      have h2 : w.receiveCalls + k + (M - (w.receiveCalls + k)) = M := by omega
      rw [h2, hadd, List.length_append, received_length] at h1
      exact h1
    obtain ⟨w1, ws, hdec, -, -, -, -, -, hout, hcnt, hrecv, -, -, -, -, -⟩ :=
      decode_frame_drains env fuel avctx pkt w k (not_lt.1 hsend) hmin
        (fun i hi _ => hpic _ (by omega) (hmin i hi)) hterm (by rw [hc]; omega) hk
    refine ⟨w1, hdec, by omega, ?_, ?_⟩
    · rw [hrecv, pictures_succ_of_not_delivers env _ hterm, hadd, hcnt, hc,
        List.length_append, received_length]
      push_cast
      rfl
    · rw [hrecv, pictures_succ_of_not_delivers env _ hterm, hadd, hout, ho,
        progressText_append, hc, Int.zero_add]

/-- A run of `decode_frame` calls from a state where every picture so far was reported
returns, and every picture received is again reported. -/
theorem decodeAll_reports (env : Env) (fuel : Nat) (M : Nat) (hfuel : 0 < fuel)
    (hwin : ∀ n, n < M → ∃ j, j < fuel ∧ ¬ Delivers env (n + j))
    (hpic : ∀ i, i < M → Delivers env i → (receivedFrame env i).Picture)
    (hmax : ((pictures env M).length : Int) ≤ INT_MAX) :
    ∀ (calls : List (Nat × List Byte)) (w : World),
      w.receiveCalls + calls.length * fuel ≤ M → Reported env w →
      ∃ w1 : World, decodeAll env fuel calls w = some w1 ∧ Reported env w1 := by
  intro calls
  induction calls with
  | nil => intro w _ hrep; exact ⟨w, rfl, hrep⟩
  | cons call rest ih =>
    intro w hM hrep
    rw [List.length_cons, Nat.succ_mul] at hM
    obtain ⟨w1, hdec, hle, hrep1⟩ :=
      decode_frame_reports env fuel call.1 call.2 w M hfuel (by omega) hwin hpic hmax hrep
    obtain ⟨w2, hrun, hrep2⟩ := ih w1 (by omega) hrep1
    exact ⟨w2, by rw [decodeAll, hdec, Option.some_bind]; exact hrun, hrep2⟩

/-! ## The claims -/

/-- C1: when the output file opens and every write is accepted, `append_frame_to_file`
on a picture of width `W ≥ 0` and height `H ≥ 0` whose plane buffers hold the rows read
appends exactly the frame block (`H` luma rows of `W` bytes, then `H/2` chroma-blue rows
and `H/2` chroma-red rows of `W/2` bytes) and nothing else, with one `fopen` and one
`fwrite` per row; stride padding never reaches the file: a picture that differs only
in stride or padding produces the same result. -/
theorem append_frame_to_file_appends_frame_block (env : Env) (f : AVFrame) (w : World)
    (hw : 0 ≤ f.width) (hwmax : f.width ≤ INT_MAX) (hh : 0 ≤ f.height) (hbuf : PlanesIn f)
    (hopen : env.fopen w.fopenCalls = true) (hacc : WritesAccepted env) :
    append_frame_to_file env f w =
      some { w with
        file := w.file ++ frameBlock f
        fopenCalls := w.fopenCalls + 1
        fwriteCalls := w.fwriteCalls + rowCount f } ∧
    ∀ g : AVFrame, SameLogicalBytes f g → PlanesIn g →
      append_frame_to_file env g w = append_frame_to_file env f w := by
  have key : ∀ g : AVFrame, g.Picture →
      append_frame_to_file env g w =
        some { w with
          file := w.file ++ frameBlock g
          fopenCalls := w.fopenCalls + 1
          fwriteCalls := w.fwriteCalls + rowCount g } := by
    intro g hg
    obtain ⟨B, hB, heq⟩ := append_frame_to_file_open env g hg w.fopenCalls w.fwriteCalls hopen
    rw [heq w rfl rfl, hB hacc]
  refine ⟨key f ⟨hw, hwmax, hh, hbuf⟩, ?_⟩
  intro g hsame hg
  have hgw : g.width = f.width := hsame.1
  have hgh : g.height = f.height := hsame.2.1
  rw [key f ⟨hw, hwmax, hh, hbuf⟩, key g ⟨by omega, by omega, by omega, hg⟩,
    frameBlock_congr f g hsame]
  simp only [rowCount, hgh]

theorem append_frame_to_file_appends_frame_block_witness :
    append_frame_to_file (scriptEnv true 0 []) sampleFrame World.init =
      some { World.init with
        file := World.init.file ++ frameBlock sampleFrame
        fopenCalls := World.init.fopenCalls + 1
        fwriteCalls := World.init.fwriteCalls + rowCount sampleFrame } ∧
    frameBlock sampleFrame = [10, 11, 12, 13, 20, 21, 22, 23, 30, 31, 40, 41] :=
  ⟨(append_frame_to_file_appends_frame_block (scriptEnv true 0 []) sampleFrame World.init
      (by decide) (by decide) (by decide) (by decide) rfl (scriptEnv_accepts _ _ _)).1,
    by decide⟩

/-- C8: when the output file cannot be opened, `append_frame_to_file` returns normally
after writing the one diagnostic `Could not open file` to the error stream; the file,
the count of `fwrite` calls and everything else stay as they were, and the result is
the same for every frame, so no plane byte is read. -/
theorem append_frame_to_file_open_failure (env : Env) (f : AVFrame) (w : World)
    (hopen : env.fopen w.fopenCalls = false) :
    append_frame_to_file env f w =
      some { w with
        stderr := w.stderr ++ "Could not open file"
        fopenCalls := w.fopenCalls + 1 } ∧
    ∀ g : AVFrame, append_frame_to_file env g w = append_frame_to_file env f w := by
  refine ⟨append_frame_to_file_closed env f w hopen, fun g => ?_⟩
  rw [append_frame_to_file_closed env f w hopen, append_frame_to_file_closed env g w hopen]

theorem append_frame_to_file_open_failure_witness :
    append_frame_to_file (scriptEnv false 0 []) emptyFrame World.init =
      some { World.init with
        stderr := World.init.stderr ++ "Could not open file"
        fopenCalls := World.init.fopenCalls + 1 } :=
  (append_frame_to_file_open_failure (scriptEnv false 0 []) emptyFrame World.init rfl).1

/-- C9: when the file opens and all writes succeed, `append_frame_to_file` leaves the
file equal to its prior content followed by the frame block of the picture; serializing
the same picture a second time appends the same block again, so that from an empty file
the content is `frameBlock p ++ frameBlock p`. -/
theorem append_frame_to_file_keeps_prior_content (env : Env) (p : AVFrame) (w : World)
    (hp : p.Picture) (hacc : WritesAccepted env)
    (hopen1 : env.fopen w.fopenCalls = true) (hopen2 : env.fopen (w.fopenCalls + 1) = true) :
    ∃ w1 w2 : World,
      append_frame_to_file env p w = some w1 ∧
      append_frame_to_file env p w1 = some w2 ∧
      w1.file = w.file ++ frameBlock p ∧
      w2.file = w.file ++ frameBlock p ++ frameBlock p ∧
      (w.file = [] → w2.file = frameBlock p ++ frameBlock p) := by
  obtain ⟨B1, hB1, heq1⟩ :=
    append_frame_to_file_open env p hp w.fopenCalls w.fwriteCalls hopen1
  obtain ⟨B2, hB2, heq2⟩ :=
    append_frame_to_file_open env p hp (w.fopenCalls + 1) (w.fwriteCalls + rowCount p) hopen2
  refine ⟨_, _, heq1 w rfl rfl, heq2 _ rfl rfl, ?_, ?_, ?_⟩
  · simp only [hB1 hacc]
  · simp only [hB1 hacc, hB2 hacc]
  · intro hnil
    simp only [hB1 hacc, hB2 hacc, hnil, List.nil_append]

theorem append_frame_to_file_keeps_prior_content_witness :
    frameBlock flippedFrame = [10, 11, 12, 13, 20, 21, 22, 23, 30, 31, 40, 41] ∧
    ∃ w1 w2 : World,
      append_frame_to_file (scriptEnv true 0 []) flippedFrame World.init = some w1 ∧
      append_frame_to_file (scriptEnv true 0 []) flippedFrame w1 = some w2 ∧
      w1.file = World.init.file ++ frameBlock flippedFrame ∧
      w2.file = World.init.file ++ frameBlock flippedFrame ++ frameBlock flippedFrame ∧
      (World.init.file = [] → w2.file = frameBlock flippedFrame ++ frameBlock flippedFrame) :=
  ⟨by decide,
    append_frame_to_file_keeps_prior_content (scriptEnv true 0 []) flippedFrame World.init
      (by decide) (scriptEnv_accepts _ _ _) rfl rfl⟩

/-- C5: when `avcodec_send_packet` returns a negative code, `decode_frame` returns
(with any fuel) having written exactly the line `Can't send packet: <message>` to the
error stream and counted the submit; no receive call, no `fopen`, no `fwrite`, no
progress line, and the frame counter and the output file are unchanged. -/
theorem decode_frame_submit_failure (env : Env) (fuel avctx : Nat) (pkt : List Byte)
    (w : World) (hsend : env.avcodec_send_packet w.sendCalls < 0) :
    decode_frame env fuel avctx pkt w =
      some { w with
        sendCalls := w.sendCalls + 1
        stderr := w.stderr ++
          ("Can\x27t send packet: " ++ env.av_err2str (env.avcodec_send_packet w.sendCalls)
            ++ "\n") } := by
  unfold decode_frame
  simp only [if_pos hsend, sendDiagnostic]

theorem decode_frame_submit_failure_witness :
    decode_frame (scriptEnv true (-22) [(0, sampleFrame)]) 0 1 [0, 0, 0, 1, 103] World.init =
      some { World.init with
        sendCalls := World.init.sendCalls + 1
        stderr := World.init.stderr ++
          ("Can\x27t send packet: " ++
            (scriptEnv true (-22) [(0, sampleFrame)]).av_err2str
              ((scriptEnv true (-22) [(0, sampleFrame)]).avcodec_send_packet
                World.init.sendCalls)
            ++ "\n") } :=
  decode_frame_submit_failure (scriptEnv true (-22) [(0, sampleFrame)]) 0 1 [0, 0, 0, 1, 103]
    World.init (by decide)

/-- C3: after a successful submit, when the next `k` receive calls yield pictures and
the one after them answers "no output available" or "end of stream", `decode_frame`
returns (with fuel above `k`); the output file, the error stream and the stream call
counters are exactly what `k` serializer calls on those pictures, in receive order,
leave behind (`k` calls of `fopen`); standard output gains the `k` progress lines of
these pictures; the frame counter advances by `k`; `k + 1` receive calls are made.  For
`k = 0` the file, both streams and the counter are unchanged. -/
theorem decode_frame_serializes_each_picture (env : Env) (fuel avctx : Nat)
    (pkt : List Byte) (w : World) (k : Nat)
    (hsend : 0 ≤ env.avcodec_send_packet w.sendCalls)
    (hdel : ∀ i, i < k → Delivers env (w.receiveCalls + i))
    (hpic : ∀ i, i < k → (receivedFrame env (w.receiveCalls + i)).Picture)
    (hterm : FlowControl env (w.receiveCalls + k))
    (hcount : w.frame_count + (k : Int) ≤ INT_MAX) (hfuel : k < fuel) :
    ∃ w1 ws : World,
      decode_frame env fuel avctx pkt w = some w1 ∧
      serializeAll env (received env w.receiveCalls k) w = some ws ∧
      (received env w.receiveCalls k).length = k ∧
      w1.file = ws.file ∧ w1.stderr = ws.stderr ∧
      w1.fopenCalls = ws.fopenCalls ∧ w1.fwriteCalls = ws.fwriteCalls ∧
      w1.fopenCalls = w.fopenCalls + k ∧
      w1.stdout = w.stdout ++ progressText w.frame_count (received env w.receiveCalls k) ∧
      w1.frame_count = w.frame_count + (k : Int) ∧
      w1.receiveCalls = w.receiveCalls + k + 1 ∧
      (k = 0 → w1.file = w.file ∧ w1.stdout = w.stdout ∧ w1.stderr = w.stderr ∧
        w1.frame_count = w.frame_count ∧ w1.fopenCalls = w.fopenCalls ∧
        w1.fwriteCalls = w.fwriteCalls) := by
  obtain ⟨w1, ws, hdec, hser, hfile, hopens, hwrites, hk, hout, hcnt, hrecv, -, hflow, -, -,
      -⟩ :=
    decode_frame_drains env fuel avctx pkt w k hsend hdel (fun i hi _ => hpic i hi)
      (not_delivers_of_flow env _ hterm) hcount hfuel
  refine ⟨w1, ws, hdec, hser, received_length env _ k, hfile, hflow hterm, hopens, hwrites,
    hk, hout, hcnt, hrecv, ?_⟩
  intro hk0
  subst hk0
  have hws : ws = w := by
    simp only [received, List.range'_zero, List.map_nil, serializeAll, Option.some.injEq]
      at hser
    exact hser.symm
  subst hws
  refine ⟨hfile, ?_, hflow hterm, ?_, hopens, hwrites⟩
  · rw [hout]; simp [received, progressText]
  · rw [hcnt]; simp

theorem decode_frame_serializes_each_picture_witness :
    ∃ w1 : World,
      decode_frame twoPictureEnv 3 1 [0, 0, 0, 1, 101] World.init = some w1 ∧
      w1.stdout =
        "[1] Frame written: width=4, height=2\n" ++
          "[2] Frame written: width=3, height=3\n" ∧
      w1.frame_count = 2 ∧ w1.fopenCalls = 2 ∧ w1.receiveCalls = 3 ∧ w1.stderr = "" ∧
      w1.file =
        [10, 11, 12, 13, 20, 21, 22, 23, 30, 31, 40, 41, 1, 2, 3, 4, 5, 6, 7, 8, 9, 50,
          60] := by
  obtain ⟨w1, ws, hdec, hser, -, hfile, herr, -, -, hopen, hout, hcnt, hrecv, -⟩ :=
    decode_frame_serializes_each_picture twoPictureEnv 3 1 [0, 0, 0, 1, 101] World.init 2
      (by decide) (by decide) (by decide) (by decide) (by decide) (by decide)
  have hev :
      (serializeAll twoPictureEnv (received twoPictureEnv World.init.receiveCalls 2)
        World.init).map (fun a => (a.file, a.stderr)) =
      some ([10, 11, 12, 13, 20, 21, 22, 23, 30, 31, 40, 41, 1, 2, 3, 4, 5, 6, 7, 8, 9, 50,
        60], "") := by decide
  rw [hser] at hev
  simp only [Option.map_some', Option.some.injEq, Prod.mk.injEq] at hev
  exact ⟨w1, hdec, by rw [hout]; decide, by rw [hcnt]; decide, by rw [hopen]; rfl,
    by rw [hrecv]; rfl, by rw [herr, hev.2], by rw [hfile, hev.1]⟩

/-- C2: after a successful submit, when the decoder yields exactly one picture of
dimensions `W x H` and then "no output available" or "end of stream", `decode_frame`
returns (with fuel 2 or more) after exactly one serializer call (one `fopen`, and the
file, error stream and `fwrite` count that this one call leaves); when the file opens
and every write is accepted, the file is longer by exactly `W*H + 2*(W/2)*(H/2)` bytes,
with integer division. -/
theorem decode_frame_one_picture_size (env : Env) (fuel avctx : Nat) (pkt : List Byte)
    (w : World) (W H : Int)
    (hsend : 0 ≤ env.avcodec_send_packet w.sendCalls)
    (hdel : Delivers env w.receiveCalls)
    (hpic : (receivedFrame env w.receiveCalls).Picture)
    (hW : (receivedFrame env w.receiveCalls).width = W)
    (hH : (receivedFrame env w.receiveCalls).height = H)
    (hterm : FlowControl env (w.receiveCalls + 1))
    (hcount : w.frame_count < INT_MAX) (hfuel : 2 ≤ fuel) :
    ∃ w1 ws : World,
      decode_frame env fuel avctx pkt w = some w1 ∧
      append_frame_to_file env (receivedFrame env w.receiveCalls) w = some ws ∧
      w1.file = ws.file ∧ w1.stderr = ws.stderr ∧ w1.fwriteCalls = ws.fwriteCalls ∧
      w1.fopenCalls = w.fopenCalls + 1 ∧
      w1.receiveCalls = w.receiveCalls + 2 ∧
      (env.fopen w.fopenCalls = true → WritesAccepted env →
        (w1.file.length : Int) = (w.file.length : Int) + (W * H + 2 * ((W / 2) * (H / 2)))) := by
  obtain ⟨w1, ws, hdec, hser, hfile, -, hwrites, hk, -, -, hrecv, -, hflow, -, hall, -⟩ :=
    decode_frame_drains env fuel avctx pkt w 1 hsend
      (fun i hi => by
        have hi0 : i = 0 := by omega
        subst hi0
        exact hdel)
      (fun i hi _ => by
        have hi0 : i = 0 := by omega
        subst hi0
        exact hpic)
      (not_delivers_of_flow env _ hterm) (by push_cast; omega) (by omega)
  have hone : received env w.receiveCalls 1 = [receivedFrame env w.receiveCalls] := by
    simp [received]
  rw [hone] at hser hall
  have hser2 : append_frame_to_file env (receivedFrame env w.receiveCalls) w = some ws := by
    cases ha : append_frame_to_file env (receivedFrame env w.receiveCalls) w with
    | none => simp [serializeAll, ha] at hser
    | some a => simpa [serializeAll, ha] using hser
  refine ⟨w1, ws, hdec, hser2, hfile, hflow hterm, hwrites, hk, hrecv, ?_⟩
  intro hopen hacc
  obtain ⟨-, hblock⟩ := hall (fun i hi => by
    have hi0 : i = 0 := by omega
    subst hi0
    exact hopen)
  rw [hfile, hblock hacc]
  simp only [List.flatMap_cons, List.flatMap_nil, List.append_nil, List.length_append]
  push_cast
  rw [frameBlock_length _ hpic.1 hpic.2.2.1, hW, hH]

theorem decode_frame_one_picture_size_witness :
    ∃ w1 ws : World,
      decode_frame (scriptEnv true 0 [(0, oddFrame)]) 2 1 [0, 0, 0, 1, 101] World.init
        = some w1 ∧
      append_frame_to_file (scriptEnv true 0 [(0, oddFrame)])
        (receivedFrame (scriptEnv true 0 [(0, oddFrame)]) World.init.receiveCalls)
        World.init = some ws ∧
      w1.file = ws.file ∧ w1.stderr = ws.stderr ∧ w1.fwriteCalls = ws.fwriteCalls ∧
      w1.fopenCalls = World.init.fopenCalls + 1 ∧
      w1.receiveCalls = World.init.receiveCalls + 2 ∧
      ((scriptEnv true 0 [(0, oddFrame)]).fopen World.init.fopenCalls = true →
        WritesAccepted (scriptEnv true 0 [(0, oddFrame)]) →
        (w1.file.length : Int) =
          (World.init.file.length : Int) + (3 * 3 + 2 * ((3 / 2) * (3 / 2)))) :=
  decode_frame_one_picture_size (scriptEnv true 0 [(0, oddFrame)]) 2 1 [0, 0, 0, 1, 101]
    World.init 3 3 (by decide) (by decide) (by decide) rfl rfl (by decide) (by decide)
    (by decide)

/-- C6: after a successful submit, when the next `j` receive calls yield pictures and
the one after them does not, `decode_frame` returns (with fuel above `j`) having made
exactly `j` serializer calls, on those pictures in receive order, and `j + 1` receive
calls.  When the last code is negative and neither flow-control code, the error stream
is what the serializer calls left followed by exactly the one line
`Can't receive frame: <message>`; when it is "no output available" or "end of stream",
the error stream is what the serializer calls left and no more, which is the prior
error stream when every `fopen` succeeded. -/
theorem decode_frame_drain_failure (env : Env) (fuel avctx : Nat) (pkt : List Byte)
    (w : World) (j : Nat)
    (hsend : 0 ≤ env.avcodec_send_packet w.sendCalls)
    (hdel : ∀ i, i < j → Delivers env (w.receiveCalls + i))
    (hpic : ∀ i, i < j → (receivedFrame env (w.receiveCalls + i)).Picture)
    (hterm : Fails env (w.receiveCalls + j) ∨ FlowControl env (w.receiveCalls + j))
    (hcount : w.frame_count + (j : Int) ≤ INT_MAX) (hfuel : j < fuel) :
    ∃ w1 ws : World,
      decode_frame env fuel avctx pkt w = some w1 ∧
      serializeAll env (received env w.receiveCalls j) w = some ws ∧
      w1.file = ws.file ∧ w1.fopenCalls = ws.fopenCalls ∧ w1.fwriteCalls = ws.fwriteCalls ∧
      w1.fopenCalls = w.fopenCalls + j ∧
      w1.receiveCalls = w.receiveCalls + j + 1 ∧
      (Fails env (w.receiveCalls + j) →
        w1.stderr = ws.stderr ++
          ("Can\x27t receive frame: " ++
            env.av_err2str (env.avcodec_receive_frame (w.receiveCalls + j)).1 ++ "\n")) ∧
      (FlowControl env (w.receiveCalls + j) →
        w1.stderr = ws.stderr ∧
        ((∀ i, i < j → env.fopen (w.fopenCalls + i) = true) → w1.stderr = w.stderr)) := by
  have hnd : ¬ Delivers env (w.receiveCalls + j) := by
    rcases hterm with h | h
    · exact not_delivers_of_fails env _ h
    · exact not_delivers_of_flow env _ h
  obtain ⟨w1, ws, hdec, hser, hfile, hopens, hwrites, hk, -, -, hrecv, -, hflow, hfail, hall,
      -⟩ :=
    decode_frame_drains env fuel avctx pkt w j hsend hdel (fun i hi _ => hpic i hi) hnd hcount
      hfuel
  refine ⟨w1, ws, hdec, hser, hfile, hopens, hwrites, hk, hrecv, ?_, ?_⟩
  · intro hf
    rw [hfail hf]
    rfl
  · intro hf
    refine ⟨hflow hf, fun hop => ?_⟩
    rw [hflow hf, (hall hop).1]

theorem decode_frame_drain_failure_witness :
    ∃ w1 ws : World,
      decode_frame (scriptEnv true 0 [(0, sampleFrame), (-1094995529, emptyFrame)]) 2 1
        [0, 0, 0, 1, 65] World.init = some w1 ∧
      serializeAll (scriptEnv true 0 [(0, sampleFrame), (-1094995529, emptyFrame)])
        (received (scriptEnv true 0 [(0, sampleFrame), (-1094995529, emptyFrame)])
          World.init.receiveCalls 1) World.init = some ws ∧
      w1.file = ws.file ∧ w1.fopenCalls = ws.fopenCalls ∧ w1.fwriteCalls = ws.fwriteCalls ∧
      w1.fopenCalls = World.init.fopenCalls + 1 ∧
      w1.receiveCalls = World.init.receiveCalls + 1 + 1 ∧
      (Fails (scriptEnv true 0 [(0, sampleFrame), (-1094995529, emptyFrame)])
          (World.init.receiveCalls + 1) →
        w1.stderr = ws.stderr ++
          ("Can\x27t receive frame: " ++
            (scriptEnv true 0 [(0, sampleFrame), (-1094995529, emptyFrame)]).av_err2str
              ((scriptEnv true 0 [(0, sampleFrame),
                (-1094995529, emptyFrame)]).avcodec_receive_frame
                  (World.init.receiveCalls + 1)).1 ++ "\n")) ∧
      (FlowControl (scriptEnv true 0 [(0, sampleFrame), (-1094995529, emptyFrame)])
          (World.init.receiveCalls + 1) →
        w1.stderr = ws.stderr ∧
        ((∀ i, i < 1 →
          (scriptEnv true 0 [(0, sampleFrame), (-1094995529, emptyFrame)]).fopen
            (World.init.fopenCalls + i) = true) → w1.stderr = World.init.stderr)) :=
  decode_frame_drain_failure (scriptEnv true 0 [(0, sampleFrame), (-1094995529, emptyFrame)])
    2 1 [0, 0, 0, 1, 65] World.init 1 (by decide) (by decide) (by decide) (by decide)
    (by decide) (by decide)

/-- C10: after a successful submit, when the next `k` receive calls yield pictures, the
one after them does not, and every `fopen` of these `k` serializer calls fails,
`decode_frame` returns (with fuel above `k`) having still drained all `k` pictures: the
frame counter is up by `k` and standard output has the `k` progress lines, while the
output file is unchanged and no `fwrite` was made; the error stream holds `k` times
`Could not open file` (before the receive diagnostic, if the last code is an error).
The frames need not even have plane buffers. -/
theorem decode_frame_progress_without_output (env : Env) (fuel avctx : Nat)
    (pkt : List Byte) (w : World) (k : Nat)
    (hsend : 0 ≤ env.avcodec_send_packet w.sendCalls)
    (hdel : ∀ i, i < k → Delivers env (w.receiveCalls + i))
    (hclosed : ∀ i, i < k → env.fopen (w.fopenCalls + i) = false)
    (hterm : ¬ Delivers env (w.receiveCalls + k))
    (hcount : w.frame_count + (k : Int) ≤ INT_MAX) (hfuel : k < fuel) :
    ∃ w1 : World,
      decode_frame env fuel avctx pkt w = some w1 ∧
      w1.file = w.file ∧ w1.fwriteCalls = w.fwriteCalls ∧
      w1.fopenCalls = w.fopenCalls + k ∧
      w1.frame_count = w.frame_count + (k : Int) ∧
      w1.stdout = w.stdout ++ progressText w.frame_count (received env w.receiveCalls k) ∧
      (received env w.receiveCalls k).length = k ∧
      w1.receiveCalls = w.receiveCalls + k + 1 ∧
      (FlowControl env (w.receiveCalls + k) → w1.stderr = w.stderr ++ openDiagnostics k) ∧
      (Fails env (w.receiveCalls + k) →
        w1.stderr = w.stderr ++ openDiagnostics k ++
          ("Can\x27t receive frame: " ++
            env.av_err2str (env.avcodec_receive_frame (w.receiveCalls + k)).1 ++ "\n")) := by
  obtain ⟨w1, ws, hdec, -, hfile, -, hwrites, hk, hout, hcnt, hrecv, -, hflow, hfail, -,
      hnone⟩ :=
    decode_frame_drains env fuel avctx pkt w k hsend hdel
      (fun i hi ho => by rw [hclosed i hi] at ho; exact absurd ho (by decide))
      hterm hcount hfuel
  obtain ⟨h1, h2, h3⟩ := hnone hclosed
  refine ⟨w1, hdec, by rw [hfile, h1], by rw [hwrites, h3], hk, hcnt, hout,
    received_length env _ k, hrecv, fun hf => by rw [hflow hf, h2],
    fun hf => by rw [hfail hf, h2]; rfl⟩

theorem decode_frame_progress_without_output_witness :
    ∃ w1 : World,
      decode_frame closedFileEnv 4 1 [0, 0, 0, 1, 101] World.init = some w1 ∧
      w1.stdout =
        "[1] Frame written: width=4, height=2\n" ++
          "[2] Frame written: width=3, height=3\n" ++
          "[3] Frame written: width=4, height=2\n" ∧
      w1.frame_count = 3 ∧ w1.file = [] ∧ w1.fwriteCalls = 0 ∧ w1.fopenCalls = 3 ∧
      w1.receiveCalls = 4 ∧
      w1.stderr = "Could not open fileCould not open fileCould not open file" := by
  obtain ⟨w1, hdec, hfile, hwrites, hopen, hcnt, hout, -, hrecv, hflow, -⟩ :=
    decode_frame_progress_without_output closedFileEnv 4 1 [0, 0, 0, 1, 101] World.init 3
      (by decide) (by decide) (by decide) (by decide) (by decide) (by decide)
  exact ⟨w1, hdec, by rw [hout]; decide, by rw [hcnt]; decide, by rw [hfile]; rfl,
    by rw [hwrites]; rfl, by rw [hopen]; rfl, by rw [hrecv]; rfl,
    by rw [hflow (by decide)]; decide⟩

/-- C4: from the initial process state, a run of `decode_frame` calls (any contexts and
access units, any mix of failed submits, failed drains and successful drains) in which
every drain ends within the fuel and the pictures received are well formed returns, and
then standard output is exactly the progress lines numbered `1, 2, .., N` in order, the
`i`-th carrying the width and height of the `i`-th picture received, where `N`, the
number of pictures received in the run, is also the final value of `frame_count`. -/
theorem decodeAll_progress_lines_numbered (env : Env) (fuel : Nat)
    (calls : List (Nat × List Byte)) (hfuel : 0 < fuel)
    (hwin : ∀ n, n < calls.length * fuel → ∃ j, j < fuel ∧ ¬ Delivers env (n + j))
    (hpic : ∀ i, i < calls.length * fuel → Delivers env i → (receivedFrame env i).Picture)
    (hmax : ((pictures env (calls.length * fuel)).length : Int) ≤ INT_MAX) :
    ∃ w1 : World,
      decodeAll env fuel calls World.init = some w1 ∧
      w1.frame_count = ((pictures env w1.receiveCalls).length : Int) ∧
      w1.stdout = concatLines (numberedLines (pictures env w1.receiveCalls)) ∧
      (numberedLines (pictures env w1.receiveCalls)).length =
        (pictures env w1.receiveCalls).length := by
  obtain ⟨w1, hrun, hc, ho⟩ :=
    decodeAll_reports env fuel (calls.length * fuel) hfuel hwin hpic hmax calls World.init
      (by simp [World.init]) ⟨by simp [World.init, pictures], by
        simp [World.init, pictures, progressText]⟩
  refine ⟨w1, hrun, hc, ?_, by simp [numberedLines]⟩
  rw [ho]
  exact progressText_eq_numbered _ 0

theorem decodeAll_progress_lines_numbered_witness :
    ∃ w1 : World,
      decodeAll mixedEnv 3 [(1, [0, 0, 0, 1, 101]), (1, [0, 0, 0, 1, 65]), (2, []), (1, [9])]
        World.init = some w1 ∧
      w1.frame_count = 3 ∧
      w1.stdout =
        "[1] Frame written: width=4, height=2\n" ++
          "[2] Frame written: width=3, height=3\n" ++
          "[3] Frame written: width=4, height=2\n" := by
  obtain ⟨w1, hrun, hcnt, hout, -⟩ :=
    decodeAll_progress_lines_numbered mixedEnv 3
      [(1, [0, 0, 0, 1, 101]), (1, [0, 0, 0, 1, 65]), (2, []), (1, [9])]
      (by decide) (by decide) (by decide) (by decide)
  have hev :
      (decodeAll mixedEnv 3 [(1, [0, 0, 0, 1, 101]), (1, [0, 0, 0, 1, 65]), (2, []), (1, [9])]
        World.init).map (fun a => a.receiveCalls) = some 6 := by decide
  rw [hrun] at hev
  simp only [Option.map_some', Option.some.injEq] at hev
  exact ⟨w1, hrun, by rw [hcnt, hev]; decide, by rw [hout, hev]; decide⟩

/-- C7 (as the code has it): `init_ctx` checks neither `avcodec_find_decoder` nor
`avcodec_open2`.  Whatever these two answer, and so also when the decoder is not found
or not opened, `init_ctx` writes nothing to either stream and, when the context
allocation succeeded, returns the context pointer that `avcodec_alloc_context3` gave
it, which is not null, after one call each of the three library functions. -/
theorem init_ctx_returns_allocated_context (env : Env) (avcc : List Byte) (w : World)
    (halloc : env.avcodec_alloc_context3 w.allocCalls ≠ 0) :
    init_ctx env avcc w =
      some (env.avcodec_alloc_context3 w.allocCalls,
        { w with
          allocCalls := w.allocCalls + 1
          findCalls := w.findCalls + 1
          openCalls := w.openCalls + 1 }) := by
  unfold init_ctx
  simp only [if_neg halloc]

theorem init_ctx_returns_allocated_context_witness :
    noDecoderEnv.avcodec_find_decoder World.init.findCalls = 0 ∧
    noDecoderEnv.avcodec_open2 World.init.openCalls < 0 ∧
    init_ctx noDecoderEnv [1, 100, 0, 31] World.init =
      some (noDecoderEnv.avcodec_alloc_context3 World.init.allocCalls,
        { World.init with
          allocCalls := World.init.allocCalls + 1
          findCalls := World.init.findCalls + 1
          openCalls := World.init.openCalls + 1 }) :=
  ⟨rfl, by decide,
    init_ctx_returns_allocated_context noDecoderEnv [1, 100, 0, 31] World.init (by decide)⟩

/-- C7 (as stated) fails: with a decoder that is neither found (`NULL`) nor opened
(`-22`), `init_ctx` logs no diagnostic (the error stream and standard output stay
empty) and the pointer it returns is `1`, not null. -/
theorem init_ctx_no_decoder_counterexample :
    noDecoderEnv.avcodec_find_decoder 0 = 0 ∧ noDecoderEnv.avcodec_open2 0 < 0 ∧
    (init_ctx noDecoderEnv [1, 100, 0, 31] World.init).map
      (fun r => (r.1, r.2.stderr, r.2.stdout)) = some (1, "", "") ∧
    (init_ctx noDecoderEnv [1, 100, 0, 31] World.init).map (fun r => decide (r.1 = 0)) =
      some false := by
  refine ⟨rfl, by decide, by decide, by decide⟩

end H264Decode
